import Mathlib

/-!
Verification of the claims cache of `src/api/src/host/oauth/claimsCache.ts`.

The cache maps a hash of an access token to a claims payload, bounding each
entry's lifetime by the lesser of the token's own remaining lifetime and a
configured ceiling (`stdTTL`).  Time is modelled in milliseconds since epoch
(the resolution of the JavaScript clock `Date.now()`); the code works with
epoch seconds obtained by flooring, which is modelled by natural-number
division by 1000.  The claims payload is opaque to the cache and is modelled
by a type parameter `α`.
-/

set_option autoImplicit false

namespace AuthSample

/-- Hexadecimal digit character (lower case) for a value below 16. -/
def hexDigit (n : Nat) : Char :=
  if n < 10 then Char.ofNat (48 + n) else Char.ofNat (87 + n % 16)

/-- Render a natural number as a fixed 64-character hexadecimal string, most
significant digit first. -/
def hex64 (h : Nat) : String :=
  String.mk ((List.range 64).map (fun i => hexDigit (h / 16 ^ (63 - i) % 16)))

/-- Modelled from the spec: the `js-sha256` dependency (`hasher.sha256`), whose
source is not part of this repository.  Per the spec the cache key is "a
fixed-size deterministic digest (cryptographic hash) of the raw credential
string".  It is modelled as a pure total function from strings to 64-character
hexadecimal digests (the output shape of SHA-256), deterministic by
construction. -/
def sha256 (s : String) : String :=
  hex64 (s.data.foldl (fun acc ch => (acc * 131 + ch.toNat) % 2 ^ 256) 5381)

/-- One stored cache entry: the claims payload and the absolute expiry instant
in milliseconds since epoch (node-cache stores `t = Date.now() + ttl * 1000`). -/
structure CacheEntry (α : Type) where
  value : α
  expiryMs : Nat
deriving Repr, DecidableEq

/-- Modelled from the spec: the `node-cache` dependency, whose source is not
part of this repository.  The store is a key-to-entry mapping (here an
association list from hash key to entry); `stdTTL` is the configured default
time to live in seconds (`maxClaimsCacheMinutes * 60` in `claimsCache.ts`). -/
structure NodeCache (α : Type) where
  stdTTL : Nat
  store : List (String × CacheEntry α)
deriving Repr, DecidableEq

/-- Modelled from the spec: node-cache `set(key, value, ttl)` — the spec's
insert "stores the entry with expiry `now + ttl`" and "Re-inserting under the
same key overwrites the prior entry and its expiry (last-write-wins; no merge
of claims)". -/
def NodeCache.set {α : Type} (c : NodeCache α) (key : String) (value : α)
    (ttlSeconds : Nat) (nowMs : Nat) : NodeCache α :=
  { c with store := (key, ⟨value, nowMs + ttlSeconds * 1000⟩) ::
      c.store.filter (fun p => p.1 != key) }

/-- Modelled from the spec: node-cache `get(key)` — the spec's lookup: "If no
entry exists for the key, or the entry's expiry has passed, returns Miss (an
expired-but-not-yet-swept entry must be treated as a Miss, not returned)",
with liveness per the spec invariant "for every live entry, `now <
entry.expiry`". -/
def NodeCache.get {α : Type} (c : NodeCache α) (key : String) (nowMs : Nat) :
    Option α :=
  match c.store.find? (fun p => p.1 == key) with
  | none => none
  | some p => if nowMs < p.2.expiryMs then some p.2.value else none

/-- The raw stored entry for a key, expiry instant included (used to state
invariants about entries that `NodeCache.get` no longer returns). -/
def NodeCache.findEntry? {α : Type} (c : NodeCache α) (key : String) :
    Option (CacheEntry α) :=
  (c.store.find? (fun p => p.1 == key)).map Prod.snd

/-- The `ClaimsCache` constructor (claimsCache.ts, lines 20-32): creates the
node-cache with `stdTTL = configuration.maxClaimsCacheMinutes * 60` and an
empty store. -/
def ClaimsCache.create (α : Type) (maxClaimsCacheMinutes : Nat) : NodeCache α :=
  { stdTTL := maxClaimsCacheMinutes * 60, store := [] }

/-- `getClaimsForToken` (claimsCache.ts, lines 37-52): hash the token with
SHA-256, read the cache under that key, and return the claims, or null (`none`)
when nothing usable is stored.  `nowMs` is the clock at which the lookup runs.
The function's logging has no effect on its result and is not modelled. -/
def ClaimsCache.getClaimsForToken {α : Type} (c : NodeCache α)
    (accessToken : String) (nowMs : Nat) : Option α :=
  NodeCache.get c (sha256 accessToken) nowMs

/-- `addClaimsForToken` (claimsCache.ts, lines 57-77), with the
`ApiLogger.info` side channel made explicit: returns the new cache state
together with the list of log lines emitted.  The code computes
`epochSeconds = Math.floor(Date.now() / 1000)` (floor division of the
millisecond clock), caches only when `secondsToCache = expiry - epochSeconds`
is positive, and clamps `secondsToCache` to `stdTTL` before calling
`cache.set`. -/
def ClaimsCache.addClaimsForTokenLogged {α : Type} (c : NodeCache α)
    (accessToken : String) (expiry : Int) (claims : α) (nowMs : Nat) :
    NodeCache α × List String :=
  let epochSeconds : Nat := nowMs / 1000
  let secondsToCache : Int := expiry - (epochSeconds : Int)
  if 0 < secondsToCache then
    let hash := sha256 accessToken
    let log1 := "Token to be cached will expire in " ++ toString secondsToCache ++
      " seconds (hash: " ++ hash ++ ")"
    let clamped : Int :=
      if (c.stdTTL : Int) < secondsToCache then (c.stdTTL : Int) else secondsToCache
    let log2 := "Adding token to claims cache for " ++ toString clamped ++
      " seconds (hash: " ++ hash ++ ")"
    (NodeCache.set c hash claims clamped.toNat nowMs, [log1, log2])
  else
    (c, [])

/-- The cache state after `addClaimsForToken`, with the log side channel
projected away. -/
def ClaimsCache.addClaimsForToken {α : Type} (c : NodeCache α)
    (accessToken : String) (expiry : Int) (claims : α) (nowMs : Nat) :
    NodeCache α :=
  (ClaimsCache.addClaimsForTokenLogged c accessToken expiry claims nowMs).1

/-- One recorded `addClaimsForToken` call: token, expiry in epoch seconds,
claims payload, and the millisecond clock at call time. -/
structure InsertOp (α : Type) where
  token : String
  expiry : Int
  claims : α
  nowMs : Nat

/-- Run a sequence of `addClaimsForToken` calls against a starting cache
state. -/
def runInserts {α : Type} (c : NodeCache α) : List (InsertOp α) → NodeCache α
  | [] => c
  | op :: rest =>
      runInserts (ClaimsCache.addClaimsForToken c op.token op.expiry op.claims op.nowMs) rest

/-! ### Helper lemmas -/

/-- `addClaimsForToken` never changes the configured ceiling `stdTTL`. -/
theorem addClaimsForToken_stdTTL {α : Type} (c : NodeCache α) (tok : String)
    (expiry : Int) (claims : α) (nowMs : Nat) :
    (ClaimsCache.addClaimsForToken c tok expiry claims nowMs).stdTTL = c.stdTTL := by
  unfold ClaimsCache.addClaimsForToken ClaimsCache.addClaimsForTokenLogged
  dsimp only
  split <;> rfl

/-- With non-positive remaining lifetime, `addClaimsForToken` leaves the state
unchanged and emits no log line. -/
theorem addClaimsForTokenLogged_nonpos {α : Type} (c : NodeCache α) (tok : String)
    (expiry : Int) (claims : α) (nowMs : Nat)
    (h : expiry - ((nowMs / 1000 : Nat) : Int) ≤ 0) :
    ClaimsCache.addClaimsForTokenLogged c tok expiry claims nowMs = (c, []) := by
  unfold ClaimsCache.addClaimsForTokenLogged
  dsimp only
  rw [if_neg (by omega)]

/-- With positive remaining lifetime, `addClaimsForToken` is a `set` of the
hashed key with the clamped time to live. -/
theorem addClaimsForToken_pos {α : Type} (c : NodeCache α) (tok : String)
    (expiry : Int) (claims : α) (nowMs : Nat)
    (h : 0 < expiry - ((nowMs / 1000 : Nat) : Int)) :
    ClaimsCache.addClaimsForToken c tok expiry claims nowMs =
      NodeCache.set c (sha256 tok) claims
        (min (expiry - ((nowMs / 1000 : Nat) : Int)) (c.stdTTL : Int)).toNat nowMs := by
  unfold ClaimsCache.addClaimsForToken ClaimsCache.addClaimsForTokenLogged
  dsimp only
  rw [if_pos h]
  have hmin : (if (c.stdTTL : Int) < expiry - ((nowMs / 1000 : Nat) : Int)
      then (c.stdTTL : Int) else expiry - ((nowMs / 1000 : Nat) : Int)) =
      min (expiry - ((nowMs / 1000 : Nat) : Int)) (c.stdTTL : Int) := by
    rw [min_def]
    split <;> split <;> omega
  rw [hmin]

/-- `find?` after `set` at the written key returns the fresh pair. -/
theorem find_set_self {α : Type} (c : NodeCache α) (key : String) (v : α)
    (ttl nowMs : Nat) :
    (NodeCache.set c key v ttl nowMs).store.find? (fun p => p.1 == key) =
      some (key, ⟨v, nowMs + ttl * 1000⟩) := by
  simp [NodeCache.set, List.find?]

/-- The stored entry after `set`, at the written key. -/
theorem findEntry_set_self {α : Type} (c : NodeCache α) (key : String) (v : α)
    (ttl nowMs : Nat) :
    NodeCache.findEntry? (NodeCache.set c key v ttl nowMs) key =
      some ⟨v, nowMs + ttl * 1000⟩ := by
  rw [NodeCache.findEntry?, find_set_self]
  rfl

/-- Filtering out one key does not change `find?` for a different key. -/
theorem find_filter_ne {α : Type} (l : List (String × CacheEntry α))
    (key key' : String) (h : key' ≠ key) :
    (l.filter (fun p => p.1 != key)).find? (fun p => p.1 == key') =
      l.find? (fun p => p.1 == key') := by
  induction l with
  | nil => rfl
  | cons a t ih =>
      by_cases hk : a.1 = key
      · have h1 : (a.1 != key) = false := by simp [hk]
        have h2 : (a.1 == key') = false := by simp [hk]; exact fun hh => (h hh.symm).elim
        simp only [List.filter_cons, h1, Bool.false_eq_true, if_false, ih,
          List.find?_cons, h2]
      · have h1 : (a.1 != key) = true := by simp [hk]
        simp only [List.filter_cons, h1, if_true, List.find?_cons, ih]

/-- `set` at one key does not change the entry stored under a different key. -/
theorem findEntry_set_ne {α : Type} (c : NodeCache α) (key key' : String) (v : α)
    (ttl nowMs : Nat) (h : key' ≠ key) :
    NodeCache.findEntry? (NodeCache.set c key v ttl nowMs) key' =
      NodeCache.findEntry? c key' := by
  unfold NodeCache.findEntry? NodeCache.set
  dsimp only
  rw [List.find?_cons_of_neg, find_filter_ne _ _ _ h]
  simp only [beq_iff_eq]
  exact fun hh => h hh.symm

/-- `addClaimsForToken` does not change the entry stored under a key other than
the hash of the inserted token. -/
theorem findEntry_add_ne {α : Type} (c : NodeCache α) (tok : String) (key : String)
    (expiry : Int) (claims : α) (nowMs : Nat) (h : key ≠ sha256 tok) :
    NodeCache.findEntry? (ClaimsCache.addClaimsForToken c tok expiry claims nowMs) key =
      NodeCache.findEntry? c key := by
  by_cases hp : 0 < expiry - ((nowMs / 1000 : Nat) : Int)
  · rw [addClaimsForToken_pos c tok expiry claims nowMs hp, findEntry_set_ne _ _ _ _ _ _ h]
  · rw [ClaimsCache.addClaimsForToken, addClaimsForTokenLogged_nonpos _ _ _ _ _ (by omega)]

/-- `get` factors through the stored entry: it returns the entry's value
exactly when the clock is still before the entry's expiry instant. -/
theorem get_eq_findEntry {α : Type} (c : NodeCache α) (key : String) (nowMs : Nat) :
    NodeCache.get c key nowMs = (NodeCache.findEntry? c key).bind
      (fun e => if nowMs < e.expiryMs then some e.value else none) := by
  unfold NodeCache.get NodeCache.findEntry?
  cases c.store.find? (fun p => p.1 == key) <;> rfl

/-- The entry written by a caching `addClaimsForToken`: value as inserted,
expiry instant `nowMs + min(secondsToCache, stdTTL) * 1000`. -/
theorem findEntry_add_pos {α : Type} (c : NodeCache α) (tok : String)
    (expiry : Int) (claims : α) (nowMs : Nat)
    (h : 0 < expiry - ((nowMs / 1000 : Nat) : Int)) :
    NodeCache.findEntry? (ClaimsCache.addClaimsForToken c tok expiry claims nowMs)
        (sha256 tok) =
      some ⟨claims, nowMs +
        (min (expiry - ((nowMs / 1000 : Nat) : Int)) (c.stdTTL : Int)).toNat * 1000⟩ := by
  rw [addClaimsForToken_pos c tok expiry claims nowMs h, findEntry_set_self]

/-- Arithmetic of the clamp: a clock strictly before both the credential's own
expiry instant and `insert time + stdTTL` is strictly before the stored entry's
expiry instant. -/
theorem before_clamped_expiry {stdTTL expiry : Int} {nowMs t : Nat}
    (hpos : 0 < expiry - ((nowMs / 1000 : Nat) : Int)) (hstd : 0 ≤ stdTTL)
    (ht : (t : Int) < min (expiry * 1000) ((nowMs : Int) + stdTTL * 1000)) :
    t < nowMs + (min (expiry - ((nowMs / 1000 : Nat) : Int)) stdTTL).toNat * 1000 := by
  have ht1 : (t : Int) < expiry * 1000 := lt_of_lt_of_le ht (min_le_left _ _)
  have ht2 : (t : Int) < (nowMs : Int) + stdTTL * 1000 :=
    lt_of_lt_of_le ht (min_le_right _ _)
  rcases le_total (expiry - ((nowMs / 1000 : Nat) : Int)) stdTTL with hc | hc
  · rw [min_eq_left hc]
    omega
  · rw [min_eq_right hc]
    omega

/-- Lookup of the token just inserted, before the clamped expiry, yields the
inserted claims. -/
theorem get_add_self {α : Type} (c : NodeCache α) (tok : String) (expiry : Int)
    (claims : α) (nowMs t : Nat)
    (hpos : 0 < expiry - ((nowMs / 1000 : Nat) : Int))
    (ht : (t : Int) < min (expiry * 1000) ((nowMs : Int) + (c.stdTTL : Int) * 1000)) :
    ClaimsCache.getClaimsForToken (ClaimsCache.addClaimsForToken c tok expiry claims nowMs)
      tok t = some claims := by
  rw [ClaimsCache.getClaimsForToken, get_eq_findEntry,
    findEntry_add_pos c tok expiry claims nowMs hpos]
  dsimp only [Option.bind]
  rw [if_pos (before_clamped_expiry hpos (Int.natCast_nonneg _) ht)]

/-- A rendered digest always has exactly 64 characters. -/
theorem hex64_length (h : Nat) : (hex64 h).length = 64 := by
  simp [hex64, String.length]

/-- A run of inserts whose token hashes all differ from `key` leaves the entry
under `key` unchanged. -/
theorem runInserts_findEntry {α : Type} (ops : List (InsertOp α)) (c : NodeCache α)
    (key : String) (h : ∀ op ∈ ops, sha256 op.token ≠ key) :
    NodeCache.findEntry? (runInserts c ops) key = NodeCache.findEntry? c key := by
  induction ops generalizing c with
  | nil => rfl
  | cons op rest ih =>
      rw [runInserts, ih _ (fun o ho => h o (List.mem_cons_of_mem _ ho)),
        findEntry_add_ne _ _ _ _ _ _ (fun hh => h op (List.mem_cons_self _ _) hh.symm)]

/-! ### Claims -/

/-- Claim C1: for every `addClaimsForToken` call whose remaining lifetime
`secondsToCache = expiry - epochSeconds` is positive, the stored entry's time
to live is `min(secondsToCache, stdTTL)` seconds — it expires at the instant
`nowMs + min(secondsToCache, stdTTL) * 1000`; in particular with
`stdTTL = 300` and `expiry` 10000 seconds ahead, the entry expires 300 seconds
after insertion (see the witness). -/
theorem insert_ttl_clamped {α : Type} (c : NodeCache α) (tok : String)
    (expiry : Int) (claims : α) (nowMs : Nat)
    (h : 0 < expiry - ((nowMs / 1000 : Nat) : Int)) :
    NodeCache.findEntry? (ClaimsCache.addClaimsForToken c tok expiry claims nowMs)
        (sha256 tok) =
      some ⟨claims, nowMs +
        (min (expiry - ((nowMs / 1000 : Nat) : Int)) (c.stdTTL : Int)).toNat * 1000⟩ :=
  findEntry_add_pos c tok expiry claims nowMs h

theorem insert_ttl_clamped_witness :
    NodeCache.findEntry?
        (ClaimsCache.addClaimsForToken (ClaimsCache.create Nat 5) "token" 10000 42 0)
        (sha256 "token") = some ⟨42, 300000⟩ :=
  (insert_ttl_clamped (ClaimsCache.create Nat 5) "token" 10000 42 0 (by decide)).trans
    (by decide)

/-- Claim C2: a lookup of credential `c` after `insert(c, expiry, claims)` with
positive remaining lifetime returns exactly the inserted claims, at any clock
`t` from the insert instant up to (strictly before) the earlier of the
credential's own expiry instant and `insert time + stdTTL`. -/
theorem lookup_after_insert {α : Type} (c : NodeCache α) (tok : String)
    (expiry : Int) (claims : α) (nowMs t : Nat)
    (hpos : 0 < expiry - ((nowMs / 1000 : Nat) : Int))
    (hafter : nowMs ≤ t)
    (hbefore : (t : Int) < min (expiry * 1000) ((nowMs : Int) + (c.stdTTL : Int) * 1000)) :
    ClaimsCache.getClaimsForToken
      (ClaimsCache.addClaimsForToken c tok expiry claims nowMs) tok t = some claims :=
  get_add_self c tok expiry claims nowMs t hpos hbefore

theorem lookup_after_insert_witness :
    ClaimsCache.getClaimsForToken
      (ClaimsCache.addClaimsForToken (ClaimsCache.create Nat 5) "token" 60 7 1000)
      "token" 50000 = some 7 :=
  lookup_after_insert (ClaimsCache.create Nat 5) "token" 60 7 1000 50000
    (by decide) (by decide) (by decide)

/-- Claim C3: an `addClaimsForToken` call with non-positive remaining lifetime
is a no-op — the cache state is unchanged, so every subsequent lookup returns
the same result as before the call; being a total function into the state, the
call returns normally with no error outcome. -/
theorem insert_nonpositive_noop {α : Type} (c : NodeCache α) (tok : String)
    (expiry : Int) (claims : α) (nowMs : Nat)
    (h : expiry - ((nowMs / 1000 : Nat) : Int) ≤ 0) :
    ClaimsCache.addClaimsForToken c tok expiry claims nowMs = c ∧
    ∀ (cred : String) (t : Nat),
      ClaimsCache.getClaimsForToken
          (ClaimsCache.addClaimsForToken c tok expiry claims nowMs) cred t =
        ClaimsCache.getClaimsForToken c cred t := by
  have h0 : ClaimsCache.addClaimsForToken c tok expiry claims nowMs = c := by
    rw [ClaimsCache.addClaimsForToken,
      addClaimsForTokenLogged_nonpos c tok expiry claims nowMs h]
  exact ⟨h0, fun cred t => by rw [h0]⟩

theorem insert_nonpositive_noop_witness :
    ClaimsCache.addClaimsForToken (ClaimsCache.create Nat 5) "token" 10 7 15000 =
        ClaimsCache.create Nat 5 ∧
    ClaimsCache.getClaimsForToken
        (ClaimsCache.addClaimsForToken (ClaimsCache.create Nat 5) "token" 10 7 15000)
        "token" 15000 =
      ClaimsCache.getClaimsForToken (ClaimsCache.create Nat 5) "token" 15000 :=
  ⟨(insert_nonpositive_noop (ClaimsCache.create Nat 5) "token" 10 7 15000 (by decide)).1,
   (insert_nonpositive_noop (ClaimsCache.create Nat 5) "token" 10 7 15000
      (by decide)).2 "token" 15000⟩

/-- Claim C4: (i) every value reachable through lookup comes from a stored
entry whose expiry instant is still strictly ahead of the clock; (ii) an entry
stored by `addClaimsForToken` under the inserted token's key never expires
later than `insert time + stdTTL` (the other disjunct covers a discarded
insert, which leaves the previous entry in place); (iii) once the clock has
reached an entry's expiry instant, lookup of its credential returns Miss even
though the entry is still physically present — no sweep is needed. -/
theorem live_entry_invariant (α : Type) :
    (∀ (c : NodeCache α) (key : String) (t : Nat) (v : α),
        NodeCache.get c key t = some v →
        ∃ e : CacheEntry α, NodeCache.findEntry? c key = some e ∧
          e.value = v ∧ t < e.expiryMs) ∧
    (∀ (c : NodeCache α) (tok : String) (expiry : Int) (claims : α) (nowMs : Nat)
        (e : CacheEntry α),
        NodeCache.findEntry? (ClaimsCache.addClaimsForToken c tok expiry claims nowMs)
            (sha256 tok) = some e →
        NodeCache.findEntry? c (sha256 tok) = some e ∨
          e.expiryMs ≤ nowMs + c.stdTTL * 1000) ∧
    (∀ (c : NodeCache α) (cred : String) (t : Nat) (e : CacheEntry α),
        NodeCache.findEntry? c (sha256 cred) = some e → e.expiryMs ≤ t →
        ClaimsCache.getClaimsForToken c cred t = none) := by
  refine ⟨?_, ?_, ?_⟩
  · intro c key t v hv
    rw [get_eq_findEntry] at hv
    cases hfind : NodeCache.findEntry? c key with
    | none => rw [hfind] at hv; simp at hv
    | some e =>
        rw [hfind] at hv
        dsimp only [Option.bind] at hv
        by_cases ht : t < e.expiryMs
        · rw [if_pos ht] at hv
          exact ⟨e, hfind ▸ rfl, Option.some.inj hv, ht⟩
        · rw [if_neg ht] at hv
          simp at hv
  · intro c tok expiry claims nowMs e he
    by_cases hp : 0 < expiry - ((nowMs / 1000 : Nat) : Int)
    · right
      rw [findEntry_add_pos c tok expiry claims nowMs hp] at he
      cases Option.some.inj he
      have hmin : min (expiry - ((nowMs / 1000 : Nat) : Int)) (c.stdTTL : Int) ≤
          (c.stdTTL : Int) := min_le_right _ _
      dsimp only
      omega
    · left
      rw [ClaimsCache.addClaimsForToken,
        addClaimsForTokenLogged_nonpos _ _ _ _ _ (by omega)] at he
      exact he
  · intro c cred t e he ht
    rw [ClaimsCache.getClaimsForToken, get_eq_findEntry, he]
    dsimp only [Option.bind]
    rw [if_neg (by omega)]

theorem live_entry_invariant_witness :
    ClaimsCache.getClaimsForToken
        (⟨300, [(sha256 "token", ⟨7, 1000⟩)]⟩ : NodeCache Nat) "token" 1000 = none :=
  (live_entry_invariant Nat).2.2 ⟨300, [(sha256 "token", ⟨7, 1000⟩)]⟩ "token" 1000
    ⟨7, 1000⟩ rfl (by decide)

/-- Claim C5: lookup is total and a credential never inserted misses every
time: starting from a fresh cache, after any sequence of inserts none of which
is for this credential (all inserted key hashes differ from its hash), every
lookup of the credential, at every clock, returns `none`. -/
theorem lookup_never_inserted_miss {α : Type} (m : Nat) (cred : String)
    (ops : List (InsertOp α)) (h : ∀ op ∈ ops, sha256 op.token ≠ sha256 cred) :
    ∀ t : Nat,
      ClaimsCache.getClaimsForToken (runInserts (ClaimsCache.create α m) ops) cred t =
        none := by
  intro t
  rw [ClaimsCache.getClaimsForToken, get_eq_findEntry,
    runInserts_findEntry _ _ _ h]
  rfl

theorem lookup_never_inserted_miss_witness :
    ClaimsCache.getClaimsForToken
        (runInserts (ClaimsCache.create Nat 5) [⟨"other", 10000, 1, 0⟩]) "cred" 99 =
      none :=
  lookup_never_inserted_miss 5 "cred" [⟨"other", 10000, 1, 0⟩] (by decide) 99

/-- Claim C6: inserting the same credential twice, both times with positive
remaining lifetime, leaves exactly the second insert's entry: the stored
expiry instant is the one computed from the second call's clamped TTL, and a
lookup before that instant returns the second claims `B`, never the first. -/
theorem reinsert_overwrites {α : Type} (c : NodeCache α) (tok : String)
    (e1 e2 : Int) (A B : α) (n1 n2 : Nat)
    (h1 : 0 < e1 - ((n1 / 1000 : Nat) : Int))
    (h2 : 0 < e2 - ((n2 / 1000 : Nat) : Int)) :
    NodeCache.findEntry?
        (ClaimsCache.addClaimsForToken
          (ClaimsCache.addClaimsForToken c tok e1 A n1) tok e2 B n2) (sha256 tok) =
      some ⟨B, n2 + (min (e2 - ((n2 / 1000 : Nat) : Int)) (c.stdTTL : Int)).toNat * 1000⟩ ∧
    ∀ t : Nat, n2 ≤ t →
      (t : Int) < min (e2 * 1000) ((n2 : Int) + (c.stdTTL : Int) * 1000) →
      ClaimsCache.getClaimsForToken
        (ClaimsCache.addClaimsForToken
          (ClaimsCache.addClaimsForToken c tok e1 A n1) tok e2 B n2) tok t = some B := by
  constructor
  · rw [findEntry_add_pos _ tok e2 B n2 h2, addClaimsForToken_stdTTL]
  · intro t ht1 ht2
    refine get_add_self _ tok e2 B n2 t h2 ?_
    rw [addClaimsForToken_stdTTL]
    exact ht2

theorem reinsert_overwrites_witness :
    NodeCache.findEntry?
        (ClaimsCache.addClaimsForToken
          (ClaimsCache.addClaimsForToken (ClaimsCache.create Nat 5) "token" 100 1 0)
          "token" 50 2 0) (sha256 "token") = some ⟨2, 50000⟩ ∧
    ClaimsCache.getClaimsForToken
        (ClaimsCache.addClaimsForToken
          (ClaimsCache.addClaimsForToken (ClaimsCache.create Nat 5) "token" 100 1 0)
          "token" 50 2 0) "token" 10000 = some 2 := by
  have h := reinsert_overwrites (ClaimsCache.create Nat 5) "token" 100 50 1 2 0 0
    (by decide) (by decide)
  exact ⟨h.1.trans (by decide), h.2 10000 (by decide) (by decide)⟩

/-- Claim C7: cache key derivation is a pure total function of the credential
string — (i) the key is a fixed-size 64-character digest, never the raw
credential; (ii) identical credential strings give identical keys; (iii)
lookup derives its key as `sha256 accessToken`; (iv) insert stores under that
same derived key, so insert and lookup address the same entry for the same
credential. -/
theorem cache_key_derivation (α : Type) :
    (∀ s : String, (sha256 s).length = 64) ∧
    (∀ s t : String, s = t → sha256 s = sha256 t) ∧
    (∀ (c : NodeCache α) (tok : String) (nowMs : Nat),
        ClaimsCache.getClaimsForToken c tok nowMs = NodeCache.get c (sha256 tok) nowMs) ∧
    (∀ (c : NodeCache α) (tok : String) (expiry : Int) (claims : α) (nowMs : Nat),
        0 < expiry - ((nowMs / 1000 : Nat) : Int) →
        (NodeCache.findEntry?
          (ClaimsCache.addClaimsForToken c tok expiry claims nowMs)
          (sha256 tok)).isSome) := by
  refine ⟨fun s => hex64_length _, fun s t h => h ▸ rfl, fun c tok nowMs => rfl, ?_⟩
  intro c tok expiry claims nowMs h
  rw [findEntry_add_pos c tok expiry claims nowMs h]
  rfl

theorem cache_key_derivation_witness :
    (sha256 "abc").length = 64 ∧ sha256 "abc" = sha256 "abc" ∧
    ClaimsCache.getClaimsForToken (ClaimsCache.create Nat 5) "abc" 0 =
      NodeCache.get (ClaimsCache.create Nat 5) (sha256 "abc") 0 ∧
    (NodeCache.findEntry?
      (ClaimsCache.addClaimsForToken (ClaimsCache.create Nat 5) "abc" 100 7 0)
      (sha256 "abc")).isSome :=
  ⟨(cache_key_derivation Nat).1 "abc",
   (cache_key_derivation Nat).2.1 "abc" "abc" rfl,
   (cache_key_derivation Nat).2.2.1 (ClaimsCache.create Nat 5) "abc" 0,
   (cache_key_derivation Nat).2.2.2 (ClaimsCache.create Nat 5) "abc" 100 7 0 (by decide)⟩

/-- Claim C8, counterexample: at this discarded insert (expiry 10 s, clock
20000 ms, so the remaining lifetime is negative) the emitted log list is
empty — no logging event records the discard, contrary to the claim that the
discard is observable via the logging side channel.  In the source all
`ApiLogger.info` calls of `addClaimsForToken` sit inside the
`secondsToCache > 0` branch. -/
theorem discarded_insert_no_log_event :
    ((10 : Int) - ((20000 / 1000 : Nat) : Int) ≤ 0) ∧
    (ClaimsCache.addClaimsForTokenLogged (ClaimsCache.create Nat 5) "token" 10 7 20000).2 =
      [] := by
  decide

/-- Claim C8, amended: a discarded insert (non-positive remaining lifetime) is
unobservable to the caller's control flow — no exception, no failure value,
the function is total and returns the unchanged state — and it is equally
unobservable on the logging side channel: no log line is emitted for it. -/
theorem discard_silent {α : Type} (c : NodeCache α) (tok : String) (expiry : Int)
    (claims : α) (nowMs : Nat) (h : expiry - ((nowMs / 1000 : Nat) : Int) ≤ 0) :
    ClaimsCache.addClaimsForTokenLogged c tok expiry claims nowMs = (c, []) :=
  addClaimsForTokenLogged_nonpos c tok expiry claims nowMs h

theorem discard_silent_witness :
    ClaimsCache.addClaimsForTokenLogged (ClaimsCache.create Nat 5) "token" 10 7 20000 =
      (ClaimsCache.create Nat 5, []) :=
  discard_silent (ClaimsCache.create Nat 5) "token" 10 7 20000 (by decide)

/-- Claim C9: the operations accept the empty credential string: lookup of
`""` on a fresh cache returns `none` without failing, and an insert of `""`
with positive remaining lifetime stores an entry that a later lookup of `""`
retrieves. -/
theorem empty_credential_accepted (α : Type) :
    (∀ (m t : Nat),
        ClaimsCache.getClaimsForToken (ClaimsCache.create α m) "" t = none) ∧
    (∀ (c : NodeCache α) (expiry : Int) (claims : α) (nowMs t : Nat),
        0 < expiry - ((nowMs / 1000 : Nat) : Int) → nowMs ≤ t →
        (t : Int) < min (expiry * 1000) ((nowMs : Int) + (c.stdTTL : Int) * 1000) →
        ClaimsCache.getClaimsForToken
          (ClaimsCache.addClaimsForToken c "" expiry claims nowMs) "" t = some claims) := by
  constructor
  · intro m t
    rfl
  · intro c expiry claims nowMs t hpos hle ht
    exact get_add_self c "" expiry claims nowMs t hpos ht

theorem empty_credential_accepted_witness :
    ClaimsCache.getClaimsForToken (ClaimsCache.create Nat 5) "" 0 = none ∧
    ClaimsCache.getClaimsForToken
        (ClaimsCache.addClaimsForToken (ClaimsCache.create Nat 5) "" 60 7 0) "" 30000 =
      some 7 :=
  ⟨(empty_credential_accepted Nat).1 5 0,
   (empty_credential_accepted Nat).2 (ClaimsCache.create Nat 5) 60 7 0 30000
     (by decide) (by decide) (by decide)⟩

/-- Claim C10: `addClaimsForToken` floors the millisecond clock to epoch
seconds, so the computed lifetime `secondsToCache` (converted to ms) exceeds
the true remaining lifetime `expiry * 1000 - nowMs` by exactly `nowMs % 1000`
ms — strictly less than one second — and an insert whose true remaining
lifetime is positive, even a fraction of a second, is still cached rather
than discarded. -/
theorem clock_floor_overshoot {α : Type} (c : NodeCache α) (tok : String)
    (expiry : Int) (claims : α) (nowMs : Nat)
    (h : 0 < expiry * 1000 - (nowMs : Int)) :
    (expiry - ((nowMs / 1000 : Nat) : Int)) * 1000 - (expiry * 1000 - (nowMs : Int)) =
        ((nowMs % 1000 : Nat) : Int) ∧
    ((nowMs % 1000 : Nat) : Int) < 1000 ∧
    (NodeCache.findEntry?
      (ClaimsCache.addClaimsForToken c tok expiry claims nowMs)
      (sha256 tok)).isSome := by
  refine ⟨by omega, by omega, ?_⟩
  have hp : 0 < expiry - ((nowMs / 1000 : Nat) : Int) := by omega
  rw [findEntry_add_pos c tok expiry claims nowMs hp]
  rfl

theorem clock_floor_overshoot_witness :
    ((2 : Int) - ((1500 / 1000 : Nat) : Int)) * 1000 -
        ((2 : Int) * 1000 - ((1500 : Nat) : Int)) = ((1500 % 1000 : Nat) : Int) ∧
    ((1500 % 1000 : Nat) : Int) < 1000 ∧
    (NodeCache.findEntry?
      (ClaimsCache.addClaimsForToken (ClaimsCache.create Nat 5) "token" 2 7 1500)
      (sha256 "token")).isSome :=
  clock_floor_overshoot (ClaimsCache.create Nat 5) "token" 2 7 1500 (by decide)

end AuthSample
